import Mathlib

/-!
Shallow embedding of `spacy_conll/formatter.py` (class `ConllFormatter`).
Python dictionaries are modelled as ordered association lists, Python strings
as `String`, Python ints as `Int`, and the `Union[str, int]` CoNLL field
values as the sum type `CValue`.  Fallible Python code (raising `KeyError` /
`ValueError`) is modelled with `Except String`.
-/

namespace SpacyConll

/-- A CoNLL field value: the Python code stores a mix of `int` and `str`. -/
inductive CValue where
  | int (n : Int)
  | str (s : String)
  deriving DecidableEq, Repr

/-- Python `str(...)` applied to a CoNLL field value. -/
def CValue.toStr : CValue → String
  | .int n => toString n
  | .str s => s

/-- The module constant `CONLL_FIELD_NAMES`: the ten canonical field names in order. -/
def CONLL_FIELD_NAMES : List String :=
  ["id", "form", "lemma", "upostag", "xpostag", "feats", "head", "deprel", "deps", "misc"]

/-- The attributes of a spaCy `Token` that the formatter reads: surface text
(`token.text`), lemma (`token.lemma_`), coarse tag (`token.pos_`), fine tag
(`token.tag_`), dependency label (`token.dep_`), trailing whitespace string
(`token.whitespace_`, empty or a space), document-wide index (`token.i`) and
the document-wide index of the syntactic head (`token.head.i`). -/
structure Token where
  text : String
  lemma_ : String
  pos_ : String
  tag_ : String
  dep_ : String
  whitespace_ : String
  i : Nat
  headI : Nat
  deriving DecidableEq, Repr

/-- A sentence `Span`: its raw text (`span.text`) and its ordered tokens. -/
structure Span where
  text : String
  tokens : List Token
  deriving DecidableEq, Repr

/-- `nlp.Defaults.tag_map`: fine tag to ordered feature mapping. -/
abbrev Tagmap := List (String × List (String × String))

/-- The two-level conversion maps: field name to a value-replacement mapping. -/
abbrev ConvMaps := List (String × List (CValue × CValue))

/-! ### Model of CPython `float(s)` string parsing (ASCII), used by `_is_number` -/

/-- ASCII whitespace stripped by CPython before parsing a float literal. -/
def pyIsSpace (c : Char) : Bool :=
  c = ' ' || c = '\t' || c = '\n' || c = '\r' || c = '\x0b' || c = '\x0c'

/-- Strip leading and trailing whitespace. -/
def pyStrip (l : List Char) : List Char :=
  ((l.dropWhile pyIsSpace).reverse.dropWhile pyIsSpace).reverse

/-- Consume a maximal continuation of a digit run: `(["_"] digit)*`
(PEP 515 allows single underscores between digits). -/
def pyDigitsTail : List Char → List Char
  | '_' :: c :: rest => if c.isDigit then pyDigitsTail rest else '_' :: c :: rest
  | c :: rest => if c.isDigit then pyDigitsTail rest else c :: rest
  | [] => []

/-- Consume a digit part: at least one digit, single underscores allowed between
digits; returns the unconsumed remainder or `none`. -/
def pyDigits : List Char → Option (List Char)
  | c :: rest => if c.isDigit then some (pyDigitsTail rest) else none
  | [] => none

/-- Consume the mantissa of a float literal:
`digitpart | digitpart "." [digitpart] | "." digitpart`. -/
def pyMantissa (l : List Char) : Option (List Char) :=
  match l with
  | '.' :: rest => pyDigits rest
  | _ =>
    match pyDigits l with
    | none => none
    | some rest =>
      match rest with
      | '.' :: rest2 =>
        match pyDigits rest2 with
        | some rest3 => some rest3
        | none => some rest2
      | _ => some rest

/-- Consume an optional exponent `("e" | "E") [sign] digitpart`. -/
def pyExp (l : List Char) : Option (List Char) :=
  match l with
  | c :: rest =>
    if c = 'e' || c = 'E' then
      match rest with
      | s :: r => if s = '+' || s = '-' then pyDigits r else pyDigits rest
      | [] => none
    else some (c :: rest)
  | [] => some []

/-- `ConllFormatter._is_number`: `True` iff CPython `float(s)` succeeds.  After
stripping whitespace and an optional sign, the input must be `inf`,
`infinity` or `nan` (case-insensitively) or a float literal consumed
entirely by mantissa and optional exponent. -/
def is_number (s : String) : Bool :=
  let l0 := pyStrip s.data
  let l :=
    match l0 with
    | c :: rest => if c = '+' || c = '-' then rest else c :: rest
    | [] => []
  let low := l.map Char.toLower
  if low = "inf".data || low = "infinity".data || low = "nan".data then true
  else
    match pyMantissa l with
    | none => false
    | some rest =>
      match pyExp rest with
      | some [] => true
      | _ => false

/-- Python `str.lower()` (ASCII case folding, which is all the formatter
compares against). -/
def py_lower (s : String) : String := ⟨s.data.map Char.toLower⟩

/-- Python `str.strip()` with no argument: remove leading and trailing
whitespace. -/
def py_strip_str (s : String) : String := ⟨pyStrip s.data⟩

/-! ### Morphology derivation -/

/-- Python truthiness test `not self._tagmap`: `None` or an empty dict. -/
def tagmapFalsy : Option Tagmap → Bool
  | none => true
  | some tm => tm.isEmpty

/-- `ConllFormatter._get_morphology`: expand a fine tag into its morphological
feature string using the tag map, excluding numeric-named keys. -/
def get_morphology (tagmap : Option Tagmap) (tag : String) : String :=
  match tagmap with
  | none => "_"
  | some tm =>
    if tm.isEmpty then "_"
    else
      match tm.lookup tag with
      | none => "_"
      | some fm =>
        let feats := (fm.filter (fun pv => !(is_number pv.1))).map (fun pv => pv.1 ++ "=" ++ pv.2)
        if feats.isEmpty then "_" else String.intercalate "|" feats

/-! ### Conversion maps -/

/-- `ConllFormatter._map_conll`: replace each field value that has an entry in
its field's conversion map; a missing map or missing entry (Python
`KeyError`) leaves the value unchanged. -/
def map_conll (cmaps : ConvMaps) (d : List (String × CValue)) : List (String × CValue) :=
  d.map (fun kv =>
    match cmaps.lookup kv.1 with
    | none => kv
    | some inner =>
      match inner.lookup kv.2 with
      | none => kv
      | some v2 => (kv.1, v2))

/-- Python truthiness test `if self._conversion_maps:`. -/
def convMapsTruthy : Option ConvMaps → Bool
  | none => false
  | some m => !m.isEmpty

/-! ### Token pass -/

/-- The head-field derivation of `ConllFormatter._set_token_conll`:
`0` when `token.dep_.lower().strip() == "root"`, otherwise
`token.head.i + 1 - token.sent[0].i` where `sentStart` stands for
`token.sent[0].i`. -/
def head_index (sentStart : Nat) (t : Token) : Int :=
  if py_strip_str (py_lower t.dep_) = "root" then 0
  else (t.headI : Int) + 1 - (sentStart : Int)

/-- `ConllFormatter._set_token_conll`: build the ordered ten-field record for
one token (the value stored in the token's `conll` attribute).  `token_idx`
is the 1-based index within the sentence. -/
def set_token_conll (tagmap : Option Tagmap) (cmaps : Option ConvMaps)
    (sentStart : Nat) (t : Token) (token_idx : Nat) : List (String × CValue) :=
  let token_conll : List CValue :=
    [ .int (token_idx : Int), .str t.text, .str t.lemma_, .str t.pos_, .str t.tag_,
      .str (get_morphology tagmap t.tag_), .int (head_index sentStart t), .str t.dep_,
      .str "_", .str (if t.whitespace_ ≠ "" then "_" else "SpaceAfter=No") ]
  let d := CONLL_FIELD_NAMES.zip token_conll
  if convMapsTruthy cmaps then map_conll (cmaps.getD []) d else d

/-- The token's `conll_str` attribute: tab-joined stringified record values
followed by a newline. -/
def token_conll_str (d : List (String × CValue)) : String :=
  String.intercalate "\t" (d.map (fun kv => kv.2.toStr)) ++ "\n"

/-! ### Sentence pass -/

/-- `token.sent[0].i` for the tokens of a span: the document index of the
span's first token. -/
def sentStartI (span : Span) : Nat :=
  match span.tokens with
  | [] => 0
  | t :: _ => t.i

/-- The span's `conll` attribute set by `ConllFormatter._set_span_conll`: the
ordered list of its tokens' records, tokens enumerated from 1. -/
def span_conll (tagmap : Option Tagmap) (cmaps : Option ConvMaps) (span : Span) :
    List (List (String × CValue)) :=
  (List.enumFrom 1 span.tokens).map (fun p => set_token_conll tagmap cmaps (sentStartI span) p.2 p.1)

/-- The span's `conll_str` attribute set by `ConllFormatter._set_span_conll`:
an optional two-line header followed by the concatenation of the tokens'
lines. -/
def span_conll_str (tagmap : Option Tagmap) (cmaps : Option ConvMaps)
    (include_headers : Bool) (span_idx : Nat) (span : Span) : String :=
  let hdr :=
    if include_headers then
      "# sent_id = " ++ toString span_idx ++ "\n# text = " ++ span.text ++ "\n"
    else ""
  hdr ++ String.join ((span_conll tagmap cmaps span).map token_conll_str)

/-! ### Constructor and strict dict merge -/

/-- Python `repr` of a list of strings, as interpolated into the `KeyError`
message of `_merge_dicts_strict`. -/
def pyListRepr (l : List String) : String :=
  "[" ++ String.intercalate ", " (l.map (fun s => "\x27" ++ s ++ "\x27")) ++ "]"

/-- Overwrite the value of key `k` in an association list (Python `d1[k] = v`
for a key already present). -/
def assocSet (d : List (String × String)) (k v : String) : List (String × String) :=
  d.map (fun kv => if kv.1 = k then (k, v) else kv)

/-- `ConllFormatter._merge_dicts_strict`: overwrite keys of `d1` with entries
of `d2`; a key of `d2` absent from `d1` raises a `KeyError` naming the valid
keys. -/
def merge_dicts_strict (d1 : List (String × String)) :
    List (String × String) → Except String (List (String × String))
  | [] => .ok d1
  | (k, v) :: rest =>
    if (d1.lookup k).isSome then merge_dicts_strict (assocSet d1 k v) rest
    else .error ("This key does not exist in the original dict. Valid keys are "
      ++ pyListRepr (d1.map Prod.fst))

/-- The default `_ext_names` dict of `ConllFormatter.__init__`, in insertion
order. -/
def default_ext_names : List (String × String) :=
  [("conll_str", "conll_str"), ("conll", "conll"), ("conll_pd", "conll_pd")]

/-- The configured formatter state. -/
structure Formatter where
  tagmap : Option Tagmap
  ext_names : List (String × String)
  conversion_maps : Option ConvMaps
  include_headers : Bool
  disable_pandas : Bool
  deriving Repr

/-- `ConllFormatter.__init__`: validates the `ext_names` rename map against the
three recognized attribute names before any document can be processed (an
`Except.error` yields no `Formatter`, so `formatter_call` is unreachable). -/
def formatter_init (tagmap : Option Tagmap) (cmaps : Option ConvMaps)
    (ext_names : Option (List (String × String)))
    (include_headers disable_pandas : Bool) : Except String Formatter :=
  match ext_names with
  | none => .ok ⟨tagmap, default_ext_names, cmaps, include_headers, disable_pandas⟩
  | some e =>
    match merge_dicts_strict default_ext_names e with
    | .error msg => .error msg
    | .ok merged => .ok ⟨tagmap, merged, cmaps, include_headers, disable_pandas⟩

/-! ### Document pass -/

/-- A pandas `DataFrame` over CoNLL records, modelled as its list of rows. -/
abbrev Table := List (List (String × CValue))

/-- `pandas.concat` followed by `reset_index(drop=True)`: raises `ValueError`
on an empty list of objects, otherwise concatenates the rows (the reset row
index is implicit in the row-list model). -/
def pd_concat (ts : List Table) : Except String Table :=
  if ts.isEmpty then .error "No objects to concatenate" else .ok ts.flatten

/-- The three document-level attributes set by `ConllFormatter.__call__`. -/
structure DocOutput where
  conll : List (List (List (String × CValue)))
  conll_str : String
  conll_pd : Option Table
  deriving Repr

/-- `ConllFormatter.__call__` on a document given as its list of sentence
spans.  `pd_available` models the module flag `PD_AVAILABLE`. -/
def formatter_call (pd_available : Bool) (f : Formatter) (doc : List Span) :
    Except String DocOutput :=
  let sent_conlls := doc.map (span_conll f.tagmap f.conversion_maps)
  let sent_strs := (List.enumFrom 1 doc).map
    (fun p => span_conll_str f.tagmap f.conversion_maps f.include_headers p.1 p.2)
  let doc_str := String.intercalate "\n" sent_strs
  if pd_available && !f.disable_pandas then
    match pd_concat (doc.map (fun s => span_conll f.tagmap f.conversion_maps s)) with
    | .error e => .error e
    | .ok t => .ok ⟨sent_conlls, doc_str, some t⟩
  else .ok ⟨sent_conlls, doc_str, none⟩

/-! ### Model of Python `line.split("\t")`, for the round-trip claim -/

/-- Python `str.split` with the single-character separator tab, over the
character list of the string. -/
def splitTab : List Char → List (List Char)
  | [] => [[]]
  | c :: rest =>
    if c = '\t' then [] :: splitTab rest
    else
      match splitTab rest with
      | h :: t => (c :: h) :: t
      | [] => [[c]]

/-- Python `line.split("\t")` on a string. -/
def py_split_on_tab (s : String) : List String :=
  (splitTab s.data).map String.mk

/-- Char-level single-separator join, the mirror image of `splitTab`. -/
def joinSep (sep : Char) : List (List Char) → List Char
  | [] => []
  | [x] => x
  | x :: y :: t => x ++ sep :: joinSep sep (y :: t)

/-! ### Concrete fixtures used by witness theorems -/

/-- A non-root token: document index 5, head at document index 6. -/
def fixTok : Token := ⟨"dog", "dog", "NOUN", "NN", "nsubj", " ", 5, 6⟩

/-- A root token (uppercase spaCy-style label). -/
def fixRoot : Token := ⟨"barks", "bark", "VERB", "VBZ", "ROOT", "", 6, 6⟩

/-- A two-token sentence span. -/
def fixSpan : Span := ⟨"dog barks", [fixTok, fixRoot]⟩

/-- A tag map holding the morphology example from the specification. -/
def fixTagmap : Tagmap := [("NN", [("Number", "Sing"), ("2", "Noun")])]

/-- A formatter with all defaults and pandas output disabled. -/
def fixFmt : Formatter := ⟨none, default_ext_names, none, false, false⟩

/-- A one-sentence document. -/
def fixDoc : List Span := [fixSpan]

/-- The document output produced on `fixDoc` (pandas unavailable). -/
def fixOut : DocOutput := ((formatter_call false fixFmt fixDoc).toOption).getD ⟨[], "", none⟩

/-! ### Helper lemmas -/

theorem foldl_append_init (l : List String) :
    ∀ x : String, l.foldl (fun r s => r ++ s) x = x ++ l.foldl (fun r s => r ++ s) "" := by
  induction l with
  | nil => intro x; simp [List.foldl]
  | cons b l ihl =>
    intro x
    simp only [List.foldl]
    rw [ihl (x ++ b), ihl ("" ++ b)]
    simp [String.append_assoc]

theorem join_cons (a : String) (l : List String) :
    String.join (a :: l) = a ++ String.join l := by
  simp only [String.join, List.foldl, String.empty_append]
  exact foldl_append_init l a

theorem map_conll_fst (m : ConvMaps) (d : List (String × CValue)) :
    (map_conll m d).map Prod.fst = d.map Prod.fst := by
  unfold map_conll
  rw [List.map_map]
  apply List.map_congr_left
  intro kv _
  simp only [Function.comp_apply]
  rcases h1 : m.lookup kv.1 with _ | inner <;> simp [h1]
  rcases h2 : inner.lookup kv.2 with _ | v2 <;> simp [h2]

theorem map_conll_length (m : ConvMaps) (d : List (String × CValue)) :
    (map_conll m d).length = d.length := by
  simp [map_conll]

theorem set_token_conll_fst (tagmap : Option Tagmap) (cmaps : Option ConvMaps)
    (sentStart : Nat) (t : Token) (idx : Nat) :
    (set_token_conll tagmap cmaps sentStart t idx).map Prod.fst = CONLL_FIELD_NAMES := by
  unfold set_token_conll
  cases h : convMapsTruthy cmaps <;> simp only [h, if_true, if_false, Bool.false_eq_true]
  · rfl
  · rw [map_conll_fst]; rfl

theorem set_token_conll_length (tagmap : Option Tagmap) (cmaps : Option ConvMaps)
    (sentStart : Nat) (t : Token) (idx : Nat) :
    (set_token_conll tagmap cmaps sentStart t idx).length = 10 := by
  unfold set_token_conll
  cases h : convMapsTruthy cmaps <;> simp only [h, if_true, if_false, Bool.false_eq_true]
  · rfl
  · rw [map_conll_length]; rfl

theorem token_conll_str_getLast (d : List (String × CValue)) :
    (token_conll_str d).data.getLast? = some '\n' := by
  unfold token_conll_str
  rw [String.data_append]
  exact List.getLast?_concat _

theorem join_data_getLast (ls : List String) (hne : ls ≠ [])
    (h : ∀ s ∈ ls, s.data.getLast? = some '\n') :
    (String.join ls).data.getLast? = some '\n' := by
  induction ls with
  | nil => exact absurd rfl hne
  | cons a l ihl =>
    cases l with
    | nil =>
      have := h a (List.mem_cons_self a [])
      simpa [join_cons, String.join] using this
    | cons b m =>
      rw [join_cons, String.data_append]
      have hj := ihl (by simp) (fun s hs => h s (List.mem_cons_of_mem _ hs))
      rw [List.getLast?_append_of_ne_nil]
      · exact hj
      · intro e
        rw [e] at hj
        simp at hj

theorem lookup_isSome_iff (d : List (String × String)) (k : String) :
    (d.lookup k).isSome = true ↔ k ∈ d.map Prod.fst := by
  induction d with
  | nil => simp [List.lookup]
  | cons p ps ihd =>
    obtain ⟨k1, v1⟩ := p
    simp only [List.lookup, List.map_cons, List.mem_cons]
    by_cases h : k = k1
    · simp [h]
    · have hb : (k == k1) = false := by simp [h]
      simp only [hb, ihd]
      simp [h]

theorem assocSet_fst (d : List (String × String)) (k v : String) :
    (assocSet d k v).map Prod.fst = d.map Prod.fst := by
  unfold assocSet
  rw [List.map_map]
  apply List.map_congr_left
  intro kv _
  by_cases h : kv.1 = k <;> simp [h]

theorem merge_ok_of_keys (e : List (String × String)) :
    ∀ d1 : List (String × String), (∀ p ∈ e, p.1 ∈ d1.map Prod.fst) →
      ∃ r, merge_dicts_strict d1 e = .ok r := by
  induction e with
  | nil => exact fun d1 _ => ⟨d1, rfl⟩
  | cons p rest ihe =>
    intro d1 h
    obtain ⟨k, v⟩ := p
    have hk : k ∈ d1.map Prod.fst := h (k, v) (List.mem_cons_self _ _)
    have hs : (d1.lookup k).isSome = true := (lookup_isSome_iff d1 k).2 hk
    simp only [merge_dicts_strict, hs, if_true]
    exact ihe (assocSet d1 k v)
      (fun q hq => by rw [assocSet_fst]; exact h q (List.mem_cons_of_mem _ hq))

theorem merge_error_of_missing (e : List (String × String)) :
    ∀ d1 : List (String × String), (∃ p ∈ e, p.1 ∉ d1.map Prod.fst) →
      merge_dicts_strict d1 e = .error
        ("This key does not exist in the original dict. Valid keys are "
          ++ pyListRepr (d1.map Prod.fst)) := by
  induction e with
  | nil => intro d1 h; simp at h
  | cons p rest ihe =>
    intro d1 h
    obtain ⟨k, v⟩ := p
    by_cases hk : k ∈ d1.map Prod.fst
    · have hs : (d1.lookup k).isSome = true := (lookup_isSome_iff d1 k).2 hk
      simp only [merge_dicts_strict, hs, if_true]
      have h2 : ∃ q ∈ rest, q.1 ∉ (assocSet d1 k v).map Prod.fst := by
        rw [assocSet_fst]
        obtain ⟨q, hq, hn⟩ := h
        rcases List.mem_cons.1 hq with rfl | hq2
        · exact absurd hk hn
        · exact ⟨q, hq2, hn⟩
      have := ihe (assocSet d1 k v) h2
      rw [assocSet_fst] at this
      exact this
    · have hs : (d1.lookup k).isSome = false := by
        rcases hb : (d1.lookup k).isSome with _ | _
        · rfl
        · exact absurd ((lookup_isSome_iff d1 k).1 hb) hk
      simp only [merge_dicts_strict, hs, Bool.false_eq_true, if_false]

theorem get_morphology_found (tm : Tagmap) (tag : String)
    (fm : List (String × String)) (h : tm.lookup tag = some fm) :
    get_morphology (some tm) tag =
      (if (fm.filter (fun pv => !(is_number pv.1))) = [] then "_"
       else String.intercalate "|"
         ((fm.filter (fun pv => !(is_number pv.1))).map (fun pv => pv.1 ++ "=" ++ pv.2))) := by
  cases tm with
  | nil => simp [List.lookup] at h
  | cons p ps =>
    simp only [get_morphology, List.isEmpty_cons, h]
    cases hf : (fm.filter (fun pv => !(is_number pv.1))) with
    | nil => simp [hf]
    | cons a l => simp [hf]

theorem splitTab_no_tab (x : List Char) (h : '\t' ∉ x) : splitTab x = [x] := by
  induction x with
  | nil => rfl
  | cons c rest ihx =>
    have hc : ¬(c = '\t') := fun e => h (e ▸ List.mem_cons_self c rest)
    have hr : '\t' ∉ rest := fun m => h (List.mem_cons_of_mem _ m)
    simp only [splitTab, if_neg hc, ihx hr]

theorem splitTab_append_tab (x l : List Char) (h : '\t' ∉ x) :
    splitTab (x ++ '\t' :: l) = x :: splitTab l := by
  induction x with
  | nil => simp [splitTab]
  | cons c rest ihx =>
    have hc : ¬(c = '\t') := fun e => h (e ▸ List.mem_cons_self c rest)
    have hr : '\t' ∉ rest := fun m => h (List.mem_cons_of_mem _ m)
    simp only [List.cons_append, splitTab, if_neg hc, List.append_eq, ihx hr]

theorem splitTab_joinSep (xs : List (List Char)) (hne : xs ≠ [])
    (h : ∀ x ∈ xs, '\t' ∉ x) : splitTab (joinSep '\t' xs) = xs := by
  induction xs with
  | nil => exact absurd rfl hne
  | cons x rest ihx =>
    cases rest with
    | nil => exact splitTab_no_tab x (h x (List.mem_cons_self _ _))
    | cons y t =>
      show splitTab (x ++ '\t' :: joinSep '\t' (y :: t)) = _
      rw [splitTab_append_tab _ _ (h x (List.mem_cons_self _ _))]
      rw [ihx (by simp) (fun z hz => h z (List.mem_cons_of_mem _ hz))]

theorem joinSep_append_cons (sep : Char) (x y : List Char) (rest : List (List Char)) :
    joinSep sep ((x ++ sep :: y) :: rest) = x ++ sep :: joinSep sep (y :: rest) := by
  cases rest with
  | nil => rfl
  | cons r rt => simp [joinSep, List.append_assoc]

theorem intercalate_tab_go (as : List String) :
    ∀ acc : String, (String.intercalate.go acc "\t" as).data
      = joinSep '\t' (acc.data :: as.map String.data) := by
  induction as with
  | nil => intro acc; rfl
  | cons a as iha =>
    intro acc
    show (String.intercalate.go (acc ++ "\t" ++ a) "\t" as).data = _
    rw [iha]
    have hd : (acc ++ "\t" ++ a).data = acc.data ++ '\t' :: a.data := by
      simp [String.data_append]
    rw [hd, joinSep_append_cons]
    rfl

theorem data_intercalate_tab (l : List String) :
    (String.intercalate "\t" l).data = joinSep '\t' (l.map String.data) := by
  cases l with
  | nil => rfl
  | cons a as => exact intercalate_tab_go as a

/-! ### Claim theorems -/

/-- C1: the derived head field of a token record equals 0 when the token's
dependency label, lowercased and trimmed, is "root"; otherwise it equals
1 + (head document index − document index of the sentence's first token),
and when the head lies within the sentence (of `n` tokens starting at
document index `sentStart`) that value is a positive integer at most `n`. -/
theorem C1_head_field (tagmap : Option Tagmap) (sentStart : Nat) (t : Token)
    (idx n : Nat) (h1 : sentStart ≤ t.headI) (h2 : t.headI < sentStart + n) :
    (set_token_conll tagmap none sentStart t idx).lookup "head"
      = some (.int (head_index sentStart t)) ∧
    (py_strip_str (py_lower t.dep_) = "root" → head_index sentStart t = 0) ∧
    (py_strip_str (py_lower t.dep_) ≠ "root" →
      head_index sentStart t = 1 + ((t.headI : Int) - (sentStart : Int)) ∧
      1 ≤ head_index sentStart t ∧ head_index sentStart t ≤ (n : Int)) := by
  refine ⟨rfl, fun h => by simp [head_index, h], fun h => ?_⟩
  have e : head_index sentStart t = (t.headI : Int) + 1 - (sentStart : Int) := by
    simp [head_index, h]
  refine ⟨by rw [e]; ring, ?_, ?_⟩ <;> rw [e] <;> omega

theorem C1_head_field_witness :
    (set_token_conll none none 5 fixTok 1).lookup "head"
      = some (.int (head_index 5 fixTok)) ∧
    (py_strip_str (py_lower fixTok.dep_) = "root" → head_index 5 fixTok = 0) ∧
    (py_strip_str (py_lower fixTok.dep_) ≠ "root" →
      head_index 5 fixTok = 1 + ((fixTok.headI : Int) - (5 : Int)) ∧
      1 ≤ head_index 5 fixTok ∧ head_index 5 fixTok ≤ (2 : Int)) :=
  C1_head_field none 5 fixTok 1 2 (by decide) (by decide)

/-- C2 counterexample: with pandas available and not disabled, processing a
zero-sentence document raises (`pd.concat` with no objects) instead of
setting an empty table, so `__call__` is not total over such documents. -/
theorem C2_counterexample :
    formatter_call true ⟨none, default_ext_names, none, false, false⟩ []
      = .error "No objects to concatenate" := rfl

/-- C2 amended: on a zero-sentence document, when the tabular output is
unavailable or disabled the call succeeds with empty aggregates (empty
record list, empty string); when tabular output is enabled the call fails
in the table concatenation. -/
theorem C2_empty_doc (pd_available : Bool) (f : Formatter) :
    ((pd_available && !f.disable_pandas) = false →
      formatter_call pd_available f [] = .ok ⟨[], "", none⟩) ∧
    ((pd_available && !f.disable_pandas) = true →
      formatter_call pd_available f [] = .error "No objects to concatenate") := by
  constructor <;> intro h
  · simp only [formatter_call, h, Bool.false_eq_true, if_false]
    rfl
  · simp [formatter_call, h, pd_concat]

theorem C2_empty_doc_witness :
    formatter_call false fixFmt [] = .ok ⟨[], "", none⟩ :=
  (C2_empty_doc false fixFmt).1 rfl

/-- C3: the morphology derivation returns "_" when the tag map is falsy
(absent or empty) or the tag is not a key; otherwise it renders the tag's
feature entries whose keys are not parseable as numbers as key=value pairs
joined by "|", returning "_" when no entry survives. -/
theorem C3_morphology (tm : Option Tagmap) (tag : String) :
    (tagmapFalsy tm = true → get_morphology tm tag = "_") ∧
    (∀ l : Tagmap, tm = some l → l.lookup tag = none → get_morphology tm tag = "_") ∧
    (∀ (l : Tagmap) (fm : List (String × String)), tm = some l → l.lookup tag = some fm →
      get_morphology tm tag =
        (if (fm.filter (fun pv => !(is_number pv.1))) = [] then "_"
         else String.intercalate "|"
           ((fm.filter (fun pv => !(is_number pv.1))).map (fun pv => pv.1 ++ "=" ++ pv.2)))) := by
  refine ⟨?_, ?_, ?_⟩
  · intro h
    cases tm with
    | none => rfl
    | some l =>
      have : l.isEmpty = true := by simpa [tagmapFalsy] using h
      simp [get_morphology, this]
  · intro l hl hnone
    subst hl
    simp [get_morphology, hnone]
  · intro l fm hl hfm
    subst hl
    exact get_morphology_found l tag fm hfm

theorem C3_morphology_witness :
    get_morphology (some fixTagmap) "NN" = "Number=Sing" := by
  have h := (C3_morphology (some fixTagmap) "NN").2.2 fixTagmap
    [("Number", "Sing"), ("2", "Noun")] rfl (by decide)
  rw [h]
  decide

/-- C4: constructing the formatter with a rename map whose keys are all among
the three recognized attribute names succeeds; a rename map with any other
key fails with an error naming the valid keys.  The failure happens in
`formatter_init`, before any document can be processed, since no `Formatter`
value is produced for `formatter_call`. -/
theorem C4_rename_map (tagmap : Option Tagmap) (cmaps : Option ConvMaps)
    (ihdr dpd : Bool) (e : List (String × String)) :
    ((∀ p ∈ e, p.1 ∈ ["conll_str", "conll", "conll_pd"]) →
      ∃ f, formatter_init tagmap cmaps (some e) ihdr dpd = .ok f) ∧
    ((∃ p ∈ e, p.1 ∉ ["conll_str", "conll", "conll_pd"]) →
      formatter_init tagmap cmaps (some e) ihdr dpd =
        .error ("This key does not exist in the original dict. Valid keys are "
          ++ pyListRepr ["conll_str", "conll", "conll_pd"])) := by
  have hkeys : default_ext_names.map Prod.fst = ["conll_str", "conll", "conll_pd"] := rfl
  constructor
  · intro h
    obtain ⟨r, hr⟩ := merge_ok_of_keys e default_ext_names (by rw [hkeys]; exact h)
    refine ⟨⟨tagmap, r, cmaps, ihdr, dpd⟩, ?_⟩
    simp [formatter_init, hr]
  · intro h
    have he := merge_error_of_missing e default_ext_names (by rw [hkeys]; exact h)
    rw [hkeys] at he
    simp [formatter_init, he]

theorem C4_rename_map_witness :
    formatter_init none none (some [("bogus", "x")]) false false =
      .error ("This key does not exist in the original dict. Valid keys are "
        ++ pyListRepr ["conll_str", "conll", "conll_pd"]) :=
  (C4_rename_map none none false false [("bogus", "x")]).2
    ⟨("bogus", "x"), List.mem_cons_self _ _, by decide⟩

/-- C5: the per-token string, split on tab characters after removing the
terminal character, yields exactly the 10 string-coerced record values in
canonical order, and the string's last character is a newline.  The
hypothesis states that no coerced value itself contains a tab. -/
theorem C5_round_trip (tagmap : Option Tagmap) (cmaps : Option ConvMaps)
    (sentStart : Nat) (t : Token) (idx : Nat)
    (h : ∀ kv ∈ set_token_conll tagmap cmaps sentStart t idx, '\t' ∉ kv.2.toStr.data) :
    py_split_on_tab
        ⟨(token_conll_str (set_token_conll tagmap cmaps sentStart t idx)).data.dropLast⟩
      = (set_token_conll tagmap cmaps sentStart t idx).map (fun kv => kv.2.toStr) ∧
    ((set_token_conll tagmap cmaps sentStart t idx).map (fun kv => kv.2.toStr)).length = 10 ∧
    (token_conll_str (set_token_conll tagmap cmaps sentStart t idx)).data.getLast?
      = some '\n' := by
  set d := set_token_conll tagmap cmaps sentStart t idx with hd
  have hlen : d.length = 10 := set_token_conll_length tagmap cmaps sentStart t idx
  have hlen2 : (d.map (fun kv => kv.2.toStr)).length = 10 := by
    rw [List.length_map]; exact hlen
  refine ⟨?_, hlen2, token_conll_str_getLast d⟩
  have hdata : (token_conll_str d).data
      = (String.intercalate "\t" (d.map (fun kv => kv.2.toStr))).data ++ ['\n'] := by
    simp [token_conll_str, String.data_append]
  have hfne : (d.map (fun kv => kv.2.toStr)).map String.data ≠ [] := by
    intro e
    have := congrArg List.length e
    simp [hlen] at this
  have hnt : ∀ x ∈ (d.map (fun kv => kv.2.toStr)).map String.data, '\t' ∉ x := by
    intro x hx
    rw [List.map_map] at hx
    obtain ⟨kv, hkv, rfl⟩ := List.mem_map.1 hx
    exact h kv hkv
  show ((splitTab (String.mk ((token_conll_str d).data.dropLast)).data).map String.mk) = _
  rw [show (String.mk ((token_conll_str d).data.dropLast)).data
      = (token_conll_str d).data.dropLast from rfl]
  rw [hdata, List.dropLast_concat, data_intercalate_tab]
  rw [splitTab_joinSep _ hfne hnt, List.map_map]
  have hmk : ∀ s : String, String.mk s.data = s := fun s => rfl
  simp [Function.comp, hmk]

theorem C5_round_trip_witness :
    py_split_on_tab ⟨(token_conll_str (set_token_conll none none 5 fixTok 1)).data.dropLast⟩
      = (set_token_conll none none 5 fixTok 1).map (fun kv => kv.2.toStr) ∧
    ((set_token_conll none none 5 fixTok 1).map (fun kv => kv.2.toStr)).length = 10 ∧
    (token_conll_str (set_token_conll none none 5 fixTok 1)).data.getLast? = some '\n' :=
  C5_round_trip none none 5 fixTok 1 (by decide)

/-- C6: conversion maps apply field by field: a value with an entry in its
field's map is replaced, a value without an entry or a field without a map
passes through unchanged, and the record's length is preserved (no error in
any case). -/
theorem C6_conversion (cmaps : ConvMaps) (d : List (String × CValue)) (i : Nat)
    (k : String) (v : CValue) (hi : d[i]? = some (k, v)) :
    (map_conll cmaps d).length = d.length ∧
    (∀ inner v2, cmaps.lookup k = some inner → inner.lookup v = some v2 →
      (map_conll cmaps d)[i]? = some (k, v2)) ∧
    (∀ inner, cmaps.lookup k = some inner → inner.lookup v = none →
      (map_conll cmaps d)[i]? = some (k, v)) ∧
    (cmaps.lookup k = none → (map_conll cmaps d)[i]? = some (k, v)) := by
  refine ⟨map_conll_length cmaps d, ?_, ?_, ?_⟩
  · intro inner v2 h1 h2
    unfold map_conll
    rw [List.getElem?_map, hi]
    simp [h1, h2]
  · intro inner h1 h2
    unfold map_conll
    rw [List.getElem?_map, hi]
    simp [h1, h2]
  · intro h1
    unfold map_conll
    rw [List.getElem?_map, hi]
    simp [h1]

theorem C6_conversion_witness :
    (map_conll [("upostag", [(.str "NOUN", .str "N")])]
        [("upostag", .str "NOUN"), ("xpostag", .str "NN")])[0]?
      = some ("upostag", .str "N") :=
  (C6_conversion [("upostag", [(.str "NOUN", .str "N")])]
      [("upostag", .str "NOUN"), ("xpostag", .str "NN")] 0 "upostag" (.str "NOUN")
      rfl).2.1 [(.str "NOUN", .str "N")] (.str "N") rfl rfl

/-- C7: with headers enabled a sentence's string is the sent_id line, the text
line, then the tokens' lines in order; with headers disabled it is exactly
the concatenation of the tokens' lines, starting with the first token's
line. -/
theorem C7_sentence_string (tagmap : Option Tagmap) (cmaps : Option ConvMaps)
    (span_idx : Nat) (span : Span) :
    (span_conll_str tagmap cmaps true span_idx span =
      "# sent_id = " ++ toString span_idx ++ "\n# text = " ++ span.text ++ "\n"
        ++ String.join ((span_conll tagmap cmaps span).map token_conll_str)) ∧
    (span_conll_str tagmap cmaps false span_idx span =
      String.join ((span_conll tagmap cmaps span).map token_conll_str)) ∧
    (∀ t ts, span.tokens = t :: ts →
      span_conll_str tagmap cmaps false span_idx span =
        token_conll_str (set_token_conll tagmap cmaps (sentStartI span) t 1)
          ++ String.join (((List.enumFrom 2 ts).map
              (fun p => set_token_conll tagmap cmaps (sentStartI span) p.2 p.1)).map
            token_conll_str)) := by
  refine ⟨rfl, rfl, ?_⟩
  intro t ts h
  show String.join ((span_conll tagmap cmaps span).map token_conll_str) = _
  rw [span_conll, h]
  rw [List.enumFrom, List.map_cons, List.map_cons, join_cons]

theorem C7_sentence_string_witness :
    span_conll_str (some fixTagmap) none false 1 fixSpan =
      token_conll_str (set_token_conll (some fixTagmap) none (sentStartI fixSpan) fixTok 1)
        ++ String.join (((List.enumFrom 2 [fixRoot]).map
            (fun p => set_token_conll (some fixTagmap) none (sentStartI fixSpan) p.2 p.1)).map
          token_conll_str) :=
  (C7_sentence_string (some fixTagmap) none 1 fixSpan).2.2 fixTok [fixRoot] rfl

/-- C8: every token record has exactly the ten canonical keys in the same
fixed order, and every key is mapped to a scalar value (an integer or a
string, never a null). -/
theorem C8_record_invariant (tagmap : Option Tagmap) (cmaps : Option ConvMaps)
    (sentStart : Nat) (t : Token) (idx : Nat) :
    (set_token_conll tagmap cmaps sentStart t idx).map Prod.fst = CONLL_FIELD_NAMES ∧
    (set_token_conll tagmap cmaps sentStart t idx).length = 10 ∧
    (∀ kv ∈ set_token_conll tagmap cmaps sentStart t idx,
      (∃ m : Int, kv.2 = CValue.int m) ∨ (∃ s : String, kv.2 = CValue.str s)) := by
  refine ⟨set_token_conll_fst _ _ _ _ _, set_token_conll_length _ _ _ _ _, ?_⟩
  intro kv _
  cases hv : kv.2 with
  | int m => exact Or.inl ⟨m, rfl⟩
  | str s => exact Or.inr ⟨s, rfl⟩

theorem C8_record_invariant_witness :
    (set_token_conll (some fixTagmap) none 5 fixTok 1).map Prod.fst = CONLL_FIELD_NAMES ∧
    (set_token_conll (some fixTagmap) none 5 fixTok 1).length = 10 ∧
    (∀ kv ∈ set_token_conll (some fixTagmap) none 5 fixTok 1,
      (∃ m : Int, kv.2 = CValue.int m) ∨ (∃ s : String, kv.2 = CValue.str s)) :=
  C8_record_invariant (some fixTagmap) none 5 fixTok 1

theorem formatter_call_ok (pd_available : Bool) (f : Formatter) (doc : List Span)
    (out : DocOutput) (hok : formatter_call pd_available f doc = .ok out) :
    out.conll = doc.map (span_conll f.tagmap f.conversion_maps) ∧
    out.conll_str = String.intercalate "\n" ((List.enumFrom 1 doc).map
      (fun p => span_conll_str f.tagmap f.conversion_maps f.include_headers p.1 p.2)) := by
  simp only [formatter_call] at hok
  split at hok
  · split at hok
    · exact absurd hok (by simp)
    · injection hok with h
      subst h
      exact ⟨rfl, rfl⟩
  · injection hok with h
    subst h
    exact ⟨rfl, rfl⟩

/-- C9: the document's string attribute is the sentences' strings joined by a
single newline (each sentence string itself ends with a newline when the
sentence is nonempty, rendering a blank line between sentences), and the
document's record attribute is the ordered list of the sentences' record
lists, one entry per sentence, each entry of the sentence's token count. -/
theorem C9_document_aggregates (pd_available : Bool) (f : Formatter) (doc : List Span)
    (out : DocOutput) (idx : Nat) (span : Span)
    (hok : formatter_call pd_available f doc = .ok out) (hspan : span.tokens ≠ []) :
    out.conll = doc.map (span_conll f.tagmap f.conversion_maps) ∧
    out.conll.length = doc.length ∧
    out.conll_str = String.intercalate "\n" ((List.enumFrom 1 doc).map
      (fun p => span_conll_str f.tagmap f.conversion_maps f.include_headers p.1 p.2)) ∧
    (span_conll f.tagmap f.conversion_maps span).length = span.tokens.length ∧
    (span_conll_str f.tagmap f.conversion_maps f.include_headers idx span).data.getLast?
      = some '\n' := by
  obtain ⟨h1, h2⟩ := formatter_call_ok pd_available f doc out hok
  have hspanlen : ∀ sp : Span,
      (span_conll f.tagmap f.conversion_maps sp).length = sp.tokens.length := by
    intro sp
    simp [span_conll]
  refine ⟨h1, by rw [h1]; simp, h2, hspanlen span, ?_⟩
  unfold span_conll_str
  rw [String.data_append]
  have hne : ((span_conll f.tagmap f.conversion_maps span).map token_conll_str) ≠ [] := by
    intro e
    have hl := congrArg List.length e
    rw [List.length_map, hspanlen] at hl
    exact hspan (List.length_eq_zero.1 hl)
  have hj := join_data_getLast _ hne (fun s hs => by
    obtain ⟨d0, hd0, rfl⟩ := List.mem_map.1 hs
    exact token_conll_str_getLast d0)
  rw [List.getLast?_append_of_ne_nil]
  · exact hj
  · intro e
    rw [e] at hj
    simp at hj

theorem C9_document_aggregates_witness :
    fixOut.conll = fixDoc.map (span_conll fixFmt.tagmap fixFmt.conversion_maps) ∧
    fixOut.conll.length = fixDoc.length ∧
    fixOut.conll_str = String.intercalate "\n" ((List.enumFrom 1 fixDoc).map
      (fun p => span_conll_str fixFmt.tagmap fixFmt.conversion_maps
        fixFmt.include_headers p.1 p.2)) ∧
    (span_conll fixFmt.tagmap fixFmt.conversion_maps fixSpan).length
      = fixSpan.tokens.length ∧
    (span_conll_str fixFmt.tagmap fixFmt.conversion_maps fixFmt.include_headers 1
      fixSpan).data.getLast? = some '\n' :=
  C9_document_aggregates false fixFmt fixDoc fixOut 1 fixSpan rfl (by decide)

/-- C10: the numeric-key exclusion in the morphology derivation is exactly
CPython float-literal parsing of the key: an entry survives the filter iff
float parsing of its key fails, so keys such as "1.5", "1e3", "inf" and
"nan" are excluded along with plain digit keys, while keys that fail float
parsing are kept. -/
theorem C10_float_parse_exclusion (tm : Tagmap) (tag : String)
    (fm : List (String × String)) (hfm : tm.lookup tag = some fm) :
    get_morphology (some tm) tag =
      (if (fm.filter (fun pv => !(is_number pv.1))) = [] then "_"
       else String.intercalate "|"
         ((fm.filter (fun pv => !(is_number pv.1))).map (fun pv => pv.1 ++ "=" ++ pv.2))) ∧
    (∀ p : String × String, p ∈ fm →
      (p ∈ fm.filter (fun pv => !(is_number pv.1)) ↔ is_number p.1 = false)) ∧
    is_number "1.5" = true ∧ is_number "1e3" = true ∧ is_number "inf" = true ∧
    is_number "nan" = true ∧ is_number "2" = true ∧
    is_number "Number" = false ∧ is_number "Sing" = false := by
  refine ⟨get_morphology_found tm tag fm hfm, ?_, ?_⟩
  · intro p hp
    simp [List.mem_filter, hp]
  · decide

theorem C10_float_parse_exclusion_witness :
    get_morphology (some fixTagmap) "NN" =
      (if ([("Number", "Sing"), ("2", "Noun")].filter (fun pv => !(is_number pv.1))) = []
       then "_"
       else String.intercalate "|"
         (([("Number", "Sing"), ("2", "Noun")].filter
             (fun pv => !(is_number pv.1))).map (fun pv => pv.1 ++ "=" ++ pv.2))) ∧
    (∀ p : String × String, p ∈ [("Number", "Sing"), ("2", "Noun")] →
      (p ∈ [("Number", "Sing"), ("2", "Noun")].filter (fun pv => !(is_number pv.1)) ↔
        is_number p.1 = false)) ∧
    is_number "1.5" = true ∧ is_number "1e3" = true ∧ is_number "inf" = true ∧
    is_number "nan" = true ∧ is_number "2" = true ∧
    is_number "Number" = false ∧ is_number "Sing" = false :=
  C10_float_parse_exclusion fixTagmap "NN" [("Number", "Sing"), ("2", "Noun")] (by decide)

end SpacyConll
